import Mathlib

/-!
Verification of the TapRight proximity-to-recommendation decision engine
(`backend/server.py`): the reward matcher `get_best_card_for_category`,
the haversine helper `calculate_distance`, and the location-check pipeline
of the `check_location` handler (nearest-POI selection, 4-hour notification
throttling, reward formatting, notification logging).

Modelling conventions:
* Python floats are modelled as exact rationals (`ℚ`) in the decision logic
  and as real numbers (`ℝ`) for the trigonometric distance function.
* The MongoDB collections read by the handler (POI catalog, the cards of the
  requesting user, the notification log) are passed in as lists; the one
  write (`insert_one` on `notification_logs`) is modelled by returning the
  updated log list alongside the outcome.
* In the pipeline model the distance function is a parameter
  (`dist lat1 lon1 lat2 lon2`), standing for `calculate_distance`; the code
  calls the float haversine there, which has no exact executable counterpart,
  so the selection logic is proved for every distance function and the
  haversine itself is verified separately over `ℝ`.
* Timestamps (`datetime`) are modelled as rational numbers of seconds;
  `timedelta(hours=4)` becomes the constant `cooldownSeconds = 4 * 3600`,
  and a freshly created `NotificationLog` carries the evaluation time `now`
  (the code calls `datetime.utcnow()` twice in the same handler invocation).
* Cosmetic fields never consulted by the decision logic (card issuer and
  color, POI address, generated UUID ids of log records) are omitted from
  the structures.
-/

namespace TapRight

/-- Wallet card of a user (`UserCard` model, server.py lines 70-78); only the
fields consulted by the decision logic are kept: the display name and the
reward map. The Python dict `rewards` (category name to numeric rate) is an
association list with unique keys. -/
structure UserCard where
  card_name : String
  rewards : List (String × ℚ)
deriving DecidableEq

/-- Point of interest (`POILocation` model, server.py lines 80-87); the
optional address field is omitted (never consulted). -/
structure POILocation where
  id : String
  name : String
  category : String
  latitude : ℚ
  longitude : ℚ
  radius : ℚ
deriving DecidableEq

/-- Request body of the location check (`LocationCheck` model, server.py
lines 89-92). Note the source declares the coordinates as plain floats with
no range constraint. -/
structure LocationCheck where
  latitude : ℚ
  longitude : ℚ
  user_id : String
deriving DecidableEq

/-- One notification-log record (`NotificationLog` model, server.py lines
94-99) without the generated UUID id. -/
structure NotificationLog where
  user_id : String
  poi_id : String
  card_recommended : String
  timestamp : ℚ
deriving DecidableEq

/-- The `Recommendation` response model (server.py lines 101-106). -/
structure Recommendation where
  merchant_name : String
  category : String
  recommended_card : String
  reward_rate : String
  message : String
deriving DecidableEq

/-- The possible JSON payloads returned by `check_location` (server.py
lines 349-417): found False; found True with throttled True; found True with
no_cards True; found True with no_match True; found True with a
recommendation. The merchant name and category accompany the three
intermediate outcomes as in the source. -/
inductive CheckOutcome where
  | notFound : CheckOutcome
  | throttled : String → String → CheckOutcome
  | noCards : String → String → CheckOutcome
  | noMatch : String → String → CheckOutcome
  | recommended : Recommendation → CheckOutcome
deriving DecidableEq

/-- Model of the Python `str.lower` call on the category (server.py lines
163-164): lowercase every character. `Char.toLower` lowercases the ASCII
range, which covers every category name of this system. -/
def pyLower (s : String) : String :=
  ⟨s.data.map Char.toLower⟩

/-- Per-card resolved rate for a category (body of the loop of
`get_best_card_for_category`, server.py lines 158-168): the exact
lower-cased category key if present, else the `everything` key, else the
`general` key, else 0. -/
def resolveRate (category : String) (rewards : List (String × ℚ)) : ℚ :=
  match rewards.lookup (pyLower category) with
  | some v => v
  | none =>
    match rewards.lookup "everything" with
    | some v => v
    | none =>
      match rewards.lookup "general" with
      | some v => v
      | none => 0

/-- One iteration of the loop of `get_best_card_for_category` (server.py
lines 158-172): the running pair (best_card, best_rate) is replaced exactly
when the resolved rate strictly exceeds the running best. -/
def bestStep (category : String) (s : Option UserCard × ℚ) (card : UserCard) :
    Option UserCard × ℚ :=
  let rate := resolveRate category card.rewards
  if s.2 < rate then (some card, rate) else s

/-- Translation of `get_best_card_for_category` (server.py lines 153-176):
fold the loop from (None, 0.0) and return the pair when a best card was
found, else None. -/
def get_best_card_for_category (user_cards : List UserCard) (category : String) :
    Option (UserCard × ℚ) :=
  match user_cards.foldl (bestStep category) (none, 0) with
  | (some best_card, best_rate) => some (best_card, best_rate)
  | (none, _) => none

/-- Distance from the request coordinates to a POI, as computed inside the
loop of `check_location` (server.py lines 338-343), for a given distance
function standing for `calculate_distance`. -/
def poiDist (dist : ℚ → ℚ → ℚ → ℚ → ℚ) (loc : LocationCheck)
    (poi : POILocation) : ℚ :=
  dist loc.latitude loc.longitude poi.latitude poi.longitude

/-- One iteration of the nearest-POI loop of `check_location` (server.py
lines 336-347). The state is None while no POI has passed the filter
(min_distance is infinity there, so the comparison distance < min_distance
is vacuously true), and (poi, min_distance) afterwards. -/
def nearestStep (dist : ℚ → ℚ → ℚ → ℚ → ℚ) (loc : LocationCheck)
    (s : Option (POILocation × ℚ)) (poi : POILocation) :
    Option (POILocation × ℚ) :=
  let d := poiDist dist loc poi
  match s with
  | none => if d ≤ poi.radius then some (poi, d) else none
  | some (p, m) => if d ≤ poi.radius ∧ d < m then some (poi, d) else some (p, m)

/-- The nearest-POI selection of `check_location` (server.py lines 333-347):
fold of `nearestStep` over the catalog starting from (None, infinity). -/
def nearestPOI (dist : ℚ → ℚ → ℚ → ℚ → ℚ) (loc : LocationCheck)
    (pois : List POILocation) : Option (POILocation × ℚ) :=
  pois.foldl (nearestStep dist loc) none

/-- The throttle cooldown: `timedelta(hours=4)` (server.py line 353), in
seconds. -/
def cooldownSeconds : ℚ := 4 * 3600

/-- The filter of the Mongo query of server.py lines 354-358: same user,
same POI, timestamp at or after now minus the cooldown. -/
def throttlePred (uid poi_id : String) (now : ℚ) (r : NotificationLog) :
    Bool :=
  r.user_id == uid && r.poi_id == poi_id &&
    decide (now - cooldownSeconds ≤ r.timestamp)

/-- The throttling query of `check_location` (server.py lines 352-358): a
notification-log record of the same user and POI with timestamp at or after
now minus four hours. -/
def recentNotification (logs : List NotificationLog) (uid poi_id : String)
    (now : ℚ) : Option NotificationLog :=
  logs.find? (throttlePred uid poi_id now)

/-- Python float repr as used by the f-string on `best_rate` (server.py line
405). Exact for floats of integral value, whose repr is the integer digits
followed by a trailing .0 (only such values are ever evaluated by the
theorems below). -/
def pyFloatRepr (q : ℚ) : String :=
  if q.den = 1 then toString q.num ++ ".0" else toString q

/-- Python int() truncation toward zero, as applied to `best_rate` in the
points branch (server.py line 405). -/
def pyTrunc (q : ℚ) : ℤ :=
  q.num.tdiv (q.den : ℤ)

/-- The reward text of server.py line 405: the float repr of the rate and
percent-back below 10, else the truncated rate and x points. -/
def rewardText (rate : ℚ) : String :=
  if rate < 10 then pyFloatRepr rate ++ "% back"
  else toString (pyTrunc rate) ++ "x points"

/-- Translation of the `check_location` handler body after the catalog read
(server.py lines 333-417). Inputs: the distance function (standing for
`calculate_distance`), the POI catalog, the wallet cards of the
authenticated user, the notification log, the authenticated user id, the
evaluation time, and the request body. Output: the response payload and the
notification log after the call (the source appends one record on the
recommendation path only). -/
def check_location (dist : ℚ → ℚ → ℚ → ℚ → ℚ) (all_pois : List POILocation)
    (user_cards : List UserCard) (logs : List NotificationLog)
    (current_user : String) (now : ℚ) (location : LocationCheck) :
    CheckOutcome × List NotificationLog :=
  match nearestPOI dist location all_pois with
  | none => (.notFound, logs)
  | some (nearby_poi, _) =>
    match recentNotification logs current_user nearby_poi.id now with
    | some _ => (.throttled nearby_poi.name nearby_poi.category, logs)
    | none =>
      if user_cards.isEmpty then
        (.noCards nearby_poi.name nearby_poi.category, logs)
      else
        match get_best_card_for_category user_cards nearby_poi.category with
        | none => (.noMatch nearby_poi.name nearby_poi.category, logs)
        | some (best_card, best_rate) =>
          let log : NotificationLog :=
            ⟨current_user, nearby_poi.id, best_card.card_name, now⟩
          let reward_text := rewardText best_rate
          let rec_ : Recommendation :=
            ⟨nearby_poi.name, nearby_poi.category, best_card.card_name,
              reward_text,
              "Hey, you\x27re at " ++ nearby_poi.name ++ "! Use " ++
                best_card.card_name ++ " to get " ++ reward_text ++ "."⟩
          (.recommended rec_, logs ++ [log])

/-! ## Reward matcher: helper lemmas -/

/-- A successful association-list lookup returns a value stored in the list. -/
lemma lookup_mem {k : String} {v : ℚ} :
    ∀ {l : List (String × ℚ)}, l.lookup k = some v → ∃ k', (k', v) ∈ l := by
  intro l
  induction l with
  | nil => intro h; simp [List.lookup] at h
  | cons p t ih =>
    obtain ⟨a, b⟩ := p
    intro h
    rw [List.lookup] at h
    split at h
    · injection h with hbv
      subst hbv
      exact ⟨a, List.mem_cons_self _ _⟩
    · obtain ⟨k', hk'⟩ := ih h
      exact ⟨k', List.mem_cons_of_mem _ hk'⟩

/-- When every stored rate is nonnegative the resolved rate is nonnegative. -/
lemma resolveRate_nonneg {category : String} {rewards : List (String × ℚ)}
    (h : ∀ kv ∈ rewards, (0 : ℚ) ≤ kv.2) :
    0 ≤ resolveRate category rewards := by
  unfold resolveRate
  split
  · next v hv => exact (lookup_mem hv).elim fun k' hk => h (k', v) hk
  · split
    · next v hv => exact (lookup_mem hv).elim fun k' hk => h (k', v) hk
    · split
      · next v hv => exact (lookup_mem hv).elim fun k' hk => h (k', v) hk
      · exact le_refl 0

/-- Characterization of the loop of `get_best_card_for_category`: folding
`bestStep` from state (b, r) never lowers the running best rate, bounds
every resolved rate by the final rate, and either leaves the state
untouched or lands on the first card of the list whose resolved rate equals
the final (strictly improved) rate. -/
lemma bestFold_spec (category : String) :
    ∀ (cards : List UserCard) (b : Option UserCard) (r : ℚ)
      (b' : Option UserCard) (r' : ℚ),
      cards.foldl (bestStep category) (b, r) = (b', r') →
      r ≤ r' ∧ (∀ c ∈ cards, resolveRate category c.rewards ≤ r') ∧
        ((b' = b ∧ r' = r) ∨
          ∃ l1 c l2, cards = l1 ++ c :: l2 ∧ b' = some c ∧
            resolveRate category c.rewards = r' ∧ r < r' ∧
            ∀ x ∈ l1, resolveRate category x.rewards < r') := by
  intro cards
  induction cards with
  | nil =>
    intro b r b' r' h
    simp only [List.foldl_nil, Prod.mk.injEq] at h
    obtain ⟨rfl, rfl⟩ := h
    exact ⟨le_refl _, by simp, Or.inl ⟨rfl, rfl⟩⟩
  | cons c rest ih =>
    intro b r b' r' h
    rw [List.foldl_cons] at h
    by_cases hc : r < resolveRate category c.rewards
    · rw [show bestStep category (b, r) c =
          (some c, resolveRate category c.rewards) from by
        simp [bestStep, hc]] at h
      obtain ⟨h1, h2, h3⟩ := ih (some c) (resolveRate category c.rewards) b' r' h
      refine ⟨le_trans (le_of_lt hc) h1, ?_, ?_⟩
      · intro x hx
        rcases List.mem_cons.mp hx with rfl | hx'
        · exact h1
        · exact h2 x hx'
      · rcases h3 with ⟨hb, hr⟩ | ⟨l1, c', l2, heq, hb, hres, hlt, hall⟩
        · refine Or.inr ⟨[], c, rest, rfl, hb, hr.symm, ?_, by simp⟩
          rw [hr]; exact hc
        · refine Or.inr ⟨c :: l1, c', l2, by rw [heq]; rfl, hb, hres,
            lt_trans hc hlt, ?_⟩
          intro x hx
          rcases List.mem_cons.mp hx with rfl | hx'
          · exact hlt
          · exact hall x hx'
    · rw [show bestStep category (b, r) c = (b, r) from by simp [bestStep, hc]] at h
      obtain ⟨h1, h2, h3⟩ := ih b r b' r' h
      push_neg at hc
      refine ⟨h1, ?_, ?_⟩
      · intro x hx
        rcases List.mem_cons.mp hx with rfl | hx'
        · exact le_trans hc h1
        · exact h2 x hx'
      · rcases h3 with hsame | ⟨l1, c', l2, heq, hb, hres, hlt, hall⟩
        · exact Or.inl hsame
        · refine Or.inr ⟨c :: l1, c', l2, by rw [heq]; rfl, hb, hres, hlt, ?_⟩
          intro x hx
          rcases List.mem_cons.mp hx with rfl | hx'
          · exact lt_of_le_of_lt hc hlt
          · exact hall x hx'

/-- `get_best_card_for_category` returns None exactly when no card resolves
to a positive rate. -/
lemma get_best_none_iff (cards : List UserCard) (category : String) :
    get_best_card_for_category cards category = none ↔
      ∀ c ∈ cards, resolveRate category c.rewards ≤ 0 := by
  rcases hfold : cards.foldl (bestStep category) (none, 0) with ⟨b', r'⟩
  obtain ⟨h1, h2, h3⟩ := bestFold_spec category cards none 0 b' r' hfold
  cases b' with
  | none =>
    simp only [get_best_card_for_category, hfold]
    rcases h3 with ⟨_, hr⟩ | ⟨l1, c', l2, _, hb, _, _, _⟩
    · subst hr
      exact ⟨fun _ => h2, fun _ => trivial⟩
    · exact absurd hb (by simp)
  | some c =>
    simp only [get_best_card_for_category, hfold]
    rcases h3 with ⟨hb, _⟩ | ⟨l1, c', l2, heq, hb, hres, hlt, _⟩
    · exact absurd hb (by simp)
    · constructor
      · intro h; exact absurd h (by simp)
      · intro hall
        have hmem : c' ∈ cards := by
          rw [heq]; exact List.mem_append_right _ (List.mem_cons_self _ _)
        have hle := hall c' hmem
        rw [hres] at hle
        exact absurd hlt (not_lt.mpr hle)

/-- Inversion for a successful `get_best_card_for_category`: the returned
card is the first card of the list attaining the maximal resolved rate,
which is positive. -/
lemma get_best_some_spec {cards : List UserCard} {category : String}
    {c : UserCard} {r : ℚ}
    (h : get_best_card_for_category cards category = some (c, r)) :
    resolveRate category c.rewards = r ∧ 0 < r ∧
      (∀ c' ∈ cards, resolveRate category c'.rewards ≤ r) ∧
      ∃ l1 l2, cards = l1 ++ c :: l2 ∧
        ∀ x ∈ l1, resolveRate category x.rewards < r := by
  rcases hfold : cards.foldl (bestStep category) (none, 0) with ⟨b', r'⟩
  obtain ⟨h1, h2, h3⟩ := bestFold_spec category cards none 0 b' r' hfold
  cases b' with
  | none => simp [get_best_card_for_category, hfold] at h
  | some c'' =>
    simp only [get_best_card_for_category, hfold, Option.some.injEq,
      Prod.mk.injEq] at h
    obtain ⟨rfl, rfl⟩ := h
    rcases h3 with ⟨hb, _⟩ | ⟨l1, c', l2, heq, hb, hres, hlt, hall⟩
    · exact absurd hb (by simp)
    · injection hb with hcc
      subst hcc
      exact ⟨hres, hlt, h2, l1, l2, heq, fun x hx => hall x hx⟩

/-! ## Claims C1 and C10: the reward matcher -/

/-- Claim C1: for every sequence of owned cards (with the data-model
invariant that stored reward rates are nonnegative) and every category,
`get_best_card_for_category` resolves each card by exact lower-cased key,
else `everything`, else `general`, else 0; it returns None exactly when
every card resolves to 0, and otherwise the first card of strictly
greatest resolved rate together with that rate; on the cards
gas:3/general:1 and everything:2 with category gas it returns the first
card at rate 3. -/
theorem reward_matcher_best_card_spec (cards : List UserCard) (category : String)
    (hnn : ∀ c ∈ cards, ∀ kv ∈ c.rewards, (0 : ℚ) ≤ kv.2) :
    (get_best_card_for_category cards category = none ↔
      ∀ c ∈ cards, resolveRate category c.rewards = 0) ∧
    (∀ c r, get_best_card_for_category cards category = some (c, r) →
      resolveRate category c.rewards = r ∧ 0 < r ∧
        (∀ c' ∈ cards, resolveRate category c'.rewards ≤ r) ∧
        ∃ l1 l2, cards = l1 ++ c :: l2 ∧
          ∀ x ∈ l1, resolveRate category x.rewards < r) ∧
    get_best_card_for_category
        [⟨"Amex Blue", [("gas", 3), ("general", 1)]⟩,
          ⟨"Citi Double", [("everything", 2)]⟩] "gas" =
      some (⟨"Amex Blue", [("gas", 3), ("general", 1)]⟩, 3) := by
  refine ⟨?_, ?_, by decide⟩
  · rw [get_best_none_iff]
    constructor
    · intro h c hc
      exact le_antisymm (h c hc) (resolveRate_nonneg (hnn c hc))
    · intro h c hc
      exact le_of_eq (h c hc)
  · intro c r h
    exact get_best_some_spec h

/-- Witness for claim C1 at a concrete input: the example of the claim,
obtained by applying the theorem (the nonnegativity hypothesis discharged
at the empty card list). -/
theorem reward_matcher_best_card_spec_witness :
    get_best_card_for_category
        [⟨"Amex Blue", [("gas", 3), ("general", 1)]⟩,
          ⟨"Citi Double", [("everything", 2)]⟩] "gas" =
      some (⟨"Amex Blue", [("gas", 3), ("general", 1)]⟩, 3) :=
  (reward_matcher_best_card_spec [] "x" (by simp)).2.2

/-- Claim C10: when the reward map holds the exact lower-cased category
key, its value is the resolved rate regardless of the `everything` and
`general` entries; in particular a map with the category at rate 0 and
`everything` at a positive rate resolves to 0 and the lone card is
ineligible. -/
theorem reward_matcher_exact_key_priority (category : String)
    (rewards : List (String × ℚ)) (v : ℚ)
    (h : rewards.lookup (pyLower category) = some v) :
    resolveRate category rewards = v ∧
      ∀ r : ℚ, 0 < r →
        resolveRate "gas" [("gas", 0), ("everything", r)] = 0 ∧
          get_best_card_for_category
            [⟨"Zero Gas", [("gas", 0), ("everything", r)]⟩] "gas" = none := by
  constructor
  · unfold resolveRate
    rw [h]
  · intro r _
    have hres : resolveRate "gas" [("gas", 0), ("everything", r)] = 0 := by
      unfold resolveRate
      rw [show pyLower "gas" = "gas" from rfl]
      simp [List.lookup]
    refine ⟨hres, ?_⟩
    rw [get_best_none_iff]
    intro c hc
    rw [List.mem_singleton] at hc
    subst hc
    exact le_of_eq hres

/-- Witness for claim C10 at concrete inputs, applying the theorem with the
lookup hypothesis discharged by evaluation. -/
theorem reward_matcher_exact_key_priority_witness :
    resolveRate "gas" [("gas", 2), ("everything", 9)] = 2 ∧
      get_best_card_for_category
        [⟨"Zero Gas", [("gas", 0), ("everything", 7)]⟩] "gas" = none :=
  ⟨(reward_matcher_exact_key_priority "gas" [("gas", 2), ("everything", 9)] 2
      (by decide)).1,
    ((reward_matcher_exact_key_priority "gas" [("gas", 2), ("everything", 9)] 2
      (by decide)).2 7 (by norm_num)).2⟩

/-! ## Nearest-POI selection: helper lemmas -/

/-- Characterization of a successful nearest-POI fold: the result is the
initial state or an in-radius POI of the list at its computed distance; it
is a lower bound of every in-radius distance of the list; and it never
exceeds the initial minimum. -/
lemma nearestFold_some (dist : ℚ → ℚ → ℚ → ℚ → ℚ) (loc : LocationCheck) :
    ∀ (pois : List POILocation) (init : Option (POILocation × ℚ))
      (p : POILocation) (d : ℚ),
      pois.foldl (nearestStep dist loc) init = some (p, d) →
      (init = some (p, d) ∨
        (p ∈ pois ∧ d = poiDist dist loc p ∧ d ≤ p.radius)) ∧
        (∀ q ∈ pois, poiDist dist loc q ≤ q.radius → d ≤ poiDist dist loc q) ∧
        ∀ p0 d0, init = some (p0, d0) → d ≤ d0 := by
  intro pois
  induction pois with
  | nil =>
    intro init p d h
    simp only [List.foldl_nil] at h
    refine ⟨Or.inl h, by simp, fun p0 d0 h0 => ?_⟩
    rw [h] at h0
    injection h0 with h0'
    injection h0' with _ h0d
    exact le_of_eq h0d
  | cons x rest ih =>
    intro init p d h
    rw [List.foldl_cons] at h
    cases init with
    | none =>
      by_cases hel : poiDist dist loc x ≤ x.radius
      · rw [show nearestStep dist loc none x = some (x, poiDist dist loc x) from by
          simp [nearestStep, hel]] at h
        obtain ⟨h1, h2, h3⟩ := ih _ p d h
        refine ⟨?_, ?_, by simp⟩
        · rcases h1 with heq | ⟨hm, hd, hr⟩
          · injection heq with heq'
            injection heq' with hxp hxd
            exact Or.inr ⟨hxp ▸ List.mem_cons_self _ _,
              by rw [← hxp, ← hxd], by rw [← hxp, ← hxd]; exact hel⟩
          · exact Or.inr ⟨List.mem_cons_of_mem _ hm, hd, hr⟩
        · intro q hq hql
          rcases List.mem_cons.mp hq with rfl | hq'
          · exact h3 q (poiDist dist loc q) rfl
          · exact h2 q hq' hql
      · rw [show nearestStep dist loc none x = none from by
          simp [nearestStep, hel]] at h
        obtain ⟨h1, h2, h3⟩ := ih _ p d h
        refine ⟨?_, ?_, by simp⟩
        · rcases h1 with heq | ⟨hm, hd, hr⟩
          · exact absurd heq (by simp)
          · exact Or.inr ⟨List.mem_cons_of_mem _ hm, hd, hr⟩
        · intro q hq hql
          rcases List.mem_cons.mp hq with rfl | hq'
          · exact absurd hql hel
          · exact h2 q hq' hql
    | some s =>
      obtain ⟨p0, m⟩ := s
      by_cases hb : poiDist dist loc x ≤ x.radius ∧ poiDist dist loc x < m
      · rw [show nearestStep dist loc (some (p0, m)) x
            = some (x, poiDist dist loc x) from by simp [nearestStep, hb]] at h
        obtain ⟨h1, h2, h3⟩ := ih _ p d h
        refine ⟨?_, ?_, ?_⟩
        · rcases h1 with heq | ⟨hm, hd, hr⟩
          · injection heq with heq'
            injection heq' with hxp hxd
            exact Or.inr ⟨hxp ▸ List.mem_cons_self _ _,
              by rw [← hxp, ← hxd], by rw [← hxp, ← hxd]; exact hb.1⟩
          · exact Or.inr ⟨List.mem_cons_of_mem _ hm, hd, hr⟩
        · intro q hq hql
          rcases List.mem_cons.mp hq with rfl | hq'
          · exact h3 q (poiDist dist loc q) rfl
          · exact h2 q hq' hql
        · intro p0' d0' h0
          injection h0 with h0'
          injection h0' with _ h0d
          subst h0d
          exact le_of_lt (lt_of_le_of_lt (h3 x (poiDist dist loc x) rfl) hb.2)
      · rw [show nearestStep dist loc (some (p0, m)) x = some (p0, m) from by
          simp only [nearestStep]; rw [if_neg hb]] at h
        obtain ⟨h1, h2, h3⟩ := ih _ p d h
        refine ⟨?_, ?_, ?_⟩
        · rcases h1 with heq | ⟨hm, hd, hr⟩
          · exact Or.inl heq
          · exact Or.inr ⟨List.mem_cons_of_mem _ hm, hd, hr⟩
        · intro q hq hql
          rcases List.mem_cons.mp hq with rfl | hq'
          · have hmle : m ≤ poiDist dist loc q := by
              by_contra hlt
              exact hb ⟨hql, lt_of_not_le hlt⟩
            exact le_trans (h3 p0 m rfl) hmle
          · exact h2 q hq' hql
        · intro p0' d0' h0
          injection h0 with h0'
          injection h0' with _ h0d
          subst h0d
          exact h3 p0 m rfl

/-- A nearest-POI fold that ends empty started empty and saw no in-radius
POI. -/
lemma nearestFold_none (dist : ℚ → ℚ → ℚ → ℚ → ℚ) (loc : LocationCheck) :
    ∀ (pois : List POILocation) (init : Option (POILocation × ℚ)),
      pois.foldl (nearestStep dist loc) init = none →
      init = none ∧ ∀ p ∈ pois, ¬ poiDist dist loc p ≤ p.radius := by
  intro pois
  induction pois with
  | nil =>
    intro init h
    simpa using h
  | cons x rest ih =>
    intro init h
    rw [List.foldl_cons] at h
    obtain ⟨h1, h2⟩ := ih _ h
    cases init with
    | none =>
      by_cases hel : poiDist dist loc x ≤ x.radius
      · rw [show nearestStep dist loc none x = some (x, poiDist dist loc x) from by
          simp [nearestStep, hel]] at h1
        exact absurd h1 (by simp)
      · refine ⟨rfl, ?_⟩
        intro q hq
        rcases List.mem_cons.mp hq with rfl | hq'
        · exact hel
        · exact h2 q hq'
    | some s =>
      obtain ⟨p0, m⟩ := s
      exfalso
      by_cases hb : poiDist dist loc x ≤ x.radius ∧ poiDist dist loc x < m
      · rw [show nearestStep dist loc (some (p0, m)) x
            = some (x, poiDist dist loc x) from by simp [nearestStep, hb]] at h1
        exact absurd h1 (by simp)
      · rw [show nearestStep dist loc (some (p0, m)) x = some (p0, m) from by
          simp only [nearestStep]; rw [if_neg hb]] at h1
        exact absurd h1 (by simp)

/-- If no POI of the list is within its radius the fold stays empty. -/
lemma nearestFold_none_of (dist : ℚ → ℚ → ℚ → ℚ → ℚ) (loc : LocationCheck) :
    ∀ (pois : List POILocation),
      (∀ p ∈ pois, ¬ poiDist dist loc p ≤ p.radius) →
      pois.foldl (nearestStep dist loc) none = none := by
  intro pois
  induction pois with
  | nil => intro _; rfl
  | cons x rest ih =>
    intro h
    rw [List.foldl_cons,
      show nearestStep dist loc none x = none from by
        simp [nearestStep, h x (List.mem_cons_self _ _)]]
    exact ih fun p hp => h p (List.mem_cons_of_mem _ hp)

/-- The nearest-POI selection is empty exactly when no POI is within its
radius. -/
lemma nearestPOI_eq_none_iff (dist : ℚ → ℚ → ℚ → ℚ → ℚ) (loc : LocationCheck)
    (pois : List POILocation) :
    nearestPOI dist loc pois = none ↔
      ∀ p ∈ pois, ¬ poiDist dist loc p ≤ p.radius :=
  ⟨fun h => (nearestFold_none dist loc pois none h).2,
    nearestFold_none_of dist loc pois⟩

/-- A selected nearest POI is an in-radius POI of the catalog at its
computed distance, of minimal distance among the in-radius POIs. -/
lemma nearestPOI_some_spec {dist : ℚ → ℚ → ℚ → ℚ → ℚ} {loc : LocationCheck}
    {pois : List POILocation} {p : POILocation} {d : ℚ}
    (h : nearestPOI dist loc pois = some (p, d)) :
    p ∈ pois ∧ d = poiDist dist loc p ∧ d ≤ p.radius ∧
      ∀ q ∈ pois, poiDist dist loc q ≤ q.radius → d ≤ poiDist dist loc q := by
  obtain ⟨h1, h2, _⟩ := nearestFold_some dist loc pois none p d h
  rcases h1 with heq | ⟨hm, hd, hr⟩
  · exact absurd heq (by simp)
  · exact ⟨hm, hd, hr, h2⟩

/-! ## The handler pipeline: inversion lemmas -/

/-- The recommendation payload built on the happy path of `check_location`
(server.py lines 404-412). -/
def mkRecommendation (p : POILocation) (bc : UserCard) (br : ℚ) :
    Recommendation :=
  ⟨p.name, p.category, bc.card_name, rewardText br,
    "Hey, you\x27re at " ++ p.name ++ "! Use " ++ bc.card_name ++
      " to get " ++ rewardText br ++ "."⟩

/-- The notification-log record written on the happy path of
`check_location` (server.py lines 397-402). -/
def mkLog (uid : String) (p : POILocation) (bc : UserCard) (now : ℚ) :
    NotificationLog :=
  ⟨uid, p.id, bc.card_name, now⟩

/-- With no POI selected, `check_location` answers not-found and leaves the
log alone. -/
lemma check_location_of_none {dist pois loc} (cards : List UserCard)
    (logs : List NotificationLog) (uid : String) (now : ℚ)
    (h : nearestPOI dist loc pois = none) :
    check_location dist pois cards logs uid now loc = (.notFound, logs) := by
  unfold check_location
  rw [h]

/-- Exhaustive inversion of `check_location`: the handler takes exactly one
of the five paths of the source, determined by the nearest-POI selection,
the throttling query, the emptiness of the wallet and the reward matcher,
and writes to the log only on the recommendation path. -/
lemma check_location_inv (dist : ℚ → ℚ → ℚ → ℚ → ℚ) (pois : List POILocation)
    (cards : List UserCard) (logs : List NotificationLog)
    (uid : String) (now : ℚ) (loc : LocationCheck) :
    (nearestPOI dist loc pois = none ∧
      check_location dist pois cards logs uid now loc = (.notFound, logs)) ∨
    ∃ p d, nearestPOI dist loc pois = some (p, d) ∧
      ((∃ r, recentNotification logs uid p.id now = some r ∧
          check_location dist pois cards logs uid now loc
            = (.throttled p.name p.category, logs)) ∨
        (recentNotification logs uid p.id now = none ∧
          ((cards.isEmpty = true ∧
              check_location dist pois cards logs uid now loc
                = (.noCards p.name p.category, logs)) ∨
            (cards.isEmpty = false ∧
              ((get_best_card_for_category cards p.category = none ∧
                  check_location dist pois cards logs uid now loc
                    = (.noMatch p.name p.category, logs)) ∨
                ∃ bc br,
                  get_best_card_for_category cards p.category = some (bc, br) ∧
                    check_location dist pois cards logs uid now loc
                      = (.recommended (mkRecommendation p bc br),
                        logs ++ [mkLog uid p bc now])))))) := by
  rcases hn : nearestPOI dist loc pois with _ | ⟨p, d⟩
  · exact Or.inl ⟨rfl, check_location_of_none cards logs uid now hn⟩
  · refine Or.inr ⟨p, d, rfl, ?_⟩
    rcases hr : recentNotification logs uid p.id now with _ | r
    · refine Or.inr ⟨rfl, ?_⟩
      rcases hc : cards.isEmpty with _ | _
      · refine Or.inr ⟨rfl, ?_⟩
        rcases hg : get_best_card_for_category cards p.category with _ | ⟨bc, br⟩
        · refine Or.inl ⟨rfl, ?_⟩
          simp [check_location, hn, hr, hg, hc]
        · refine Or.inr ⟨bc, br, rfl, ?_⟩
          simp [check_location, hn, hr, hg, hc, mkRecommendation, mkLog]
      · refine Or.inl ⟨rfl, ?_⟩
        simp [check_location, hn, hr, hc]
    · refine Or.inl ⟨r, rfl, ?_⟩
      simp [check_location, hn, hr]

/-! ## Claim C2: nearest eligible POI selection and the not-found path -/

/-- Claim C2: `check_location` selects, among the POIs whose distance is at
most their radius, one of minimum distance; when no POI qualifies the
outcome is not-found and nothing else happens (no throttle check, card
lookup or log write: the result is the same for every wallet and log, and
the log comes back unchanged). -/
theorem engine_nearest_selection (dist : ℚ → ℚ → ℚ → ℚ → ℚ)
    (pois : List POILocation) (uid : String) (now : ℚ) (loc : LocationCheck) :
    (nearestPOI dist loc pois = none ↔
      ∀ p ∈ pois, ¬ poiDist dist loc p ≤ p.radius) ∧
    (∀ p d, nearestPOI dist loc pois = some (p, d) →
      p ∈ pois ∧ d = poiDist dist loc p ∧ d ≤ p.radius ∧
        ∀ q ∈ pois, poiDist dist loc q ≤ q.radius → d ≤ poiDist dist loc q) ∧
    (nearestPOI dist loc pois = none →
      ∀ cards logs,
        check_location dist pois cards logs uid now loc = (.notFound, logs)) :=
  ⟨nearestPOI_eq_none_iff dist loc pois,
    fun _ _ h => nearestPOI_some_spec h,
    fun h cards logs => check_location_of_none cards logs uid now h⟩

/-- Witness for claim C2: a coordinate whose distance to the only POI
exceeds its radius yields the not-found payload with the log untouched. -/
theorem engine_nearest_selection_witness :
    check_location (fun _ _ _ _ => 1000) [⟨"p1", "Shop", "gas", 0, 0, 150⟩]
        [] [] "u" 5 ⟨0, 0, "u"⟩ = (.notFound, []) :=
  (engine_nearest_selection (fun _ _ _ _ => 1000)
      [⟨"p1", "Shop", "gas", 0, 0, 150⟩] "u" 5 ⟨0, 0, "u"⟩).2.2 (by decide) [] []

/-! ## Claim C9: behaviour at distance exactly equal to the radius -/

/-- Counterexample to claim C9: the claim says a POI whose distance equals
its radius is never selected (boundary excluded), but the source filter is
`distance <= poi.radius` (server.py line 345): at distance exactly 200 a
POI of radius 200 is selected and the evaluation proceeds past the
geofence stage. -/
theorem boundary_exclusion_counterexample :
    (⟨"chev", "Chevron Station", "gas", 0, 0, 200⟩ : POILocation).radius = 200 ∧
    nearestPOI (fun _ _ _ _ => 200) ⟨0, 0, "u"⟩
        [⟨"chev", "Chevron Station", "gas", 0, 0, 200⟩]
      = some (⟨"chev", "Chevron Station", "gas", 0, 0, 200⟩, 200) ∧
    (check_location (fun _ _ _ _ => 200)
        [⟨"chev", "Chevron Station", "gas", 0, 0, 200⟩] [] [] "u" 0
        ⟨0, 0, "u"⟩).1 = .noCards "Chevron Station" "gas" := by
  refine ⟨rfl, by decide, by decide⟩

/-- Claim C9 as amended: the boundary is included, not excluded: a POI
whose computed distance equals its radius passes the geofence filter, so
it is selected when alone in the catalog and the selection is never empty
when such a POI is in the catalog. -/
theorem boundary_inclusive (dist : ℚ → ℚ → ℚ → ℚ → ℚ) (loc : LocationCheck)
    (p : POILocation) (h : poiDist dist loc p = p.radius) :
    nearestPOI dist loc [p] = some (p, p.radius) ∧
      ∀ pois, p ∈ pois → nearestPOI dist loc pois ≠ none := by
  constructor
  · show List.foldl (nearestStep dist loc) none [p] = some (p, p.radius)
    rw [List.foldl_cons, List.foldl_nil,
      show nearestStep dist loc none p = some (p, poiDist dist loc p) from by
        simp [nearestStep, le_of_eq h], h]
  · intro pois hp hnone
    exact (nearestPOI_eq_none_iff dist loc pois).mp hnone p hp (le_of_eq h)

/-- Witness for claim C9 as amended, at a POI whose distance is exactly its
radius. -/
theorem boundary_inclusive_witness :
    nearestPOI (fun _ _ _ _ => 150) ⟨0, 0, "u"⟩ [⟨"p1", "Shop", "gas", 0, 0, 150⟩]
        = some (⟨"p1", "Shop", "gas", 0, 0, 150⟩, 150) ∧
      nearestPOI (fun _ _ _ _ => 150) ⟨0, 0, "u"⟩
        [⟨"p1", "Shop", "gas", 0, 0, 150⟩] ≠ none :=
  ⟨(boundary_inclusive (fun _ _ _ _ => 150) ⟨0, 0, "u"⟩
      ⟨"p1", "Shop", "gas", 0, 0, 150⟩ (by decide)).1,
    (boundary_inclusive (fun _ _ _ _ => 150) ⟨0, 0, "u"⟩
      ⟨"p1", "Shop", "gas", 0, 0, 150⟩ (by decide)).2
      [⟨"p1", "Shop", "gas", 0, 0, 150⟩] (List.mem_singleton.mpr rfl)⟩

/-! ## Claims C4 and C5: throttling and the log write -/

/-- The throttling query succeeds exactly when some log record matches the
(user, POI) pair inside the cooldown window. -/
lemma recentNotification_isSome_iff (logs : List NotificationLog)
    (uid pid : String) (now : ℚ) :
    (recentNotification logs uid pid now).isSome ↔
      ∃ r ∈ logs, r.user_id = uid ∧ r.poi_id = pid ∧
        now - cooldownSeconds ≤ r.timestamp := by
  rw [recentNotification, List.find?_isSome]
  simp [throttlePred, Bool.and_eq_true, beq_iff_eq, decide_eq_true_eq,
    and_assoc, sub_le_iff_le_add]

/-- The throttling query fails exactly when no log record matches the
(user, POI) pair inside the cooldown window. -/
lemma recentNotification_eq_none_iff (logs : List NotificationLog)
    (uid pid : String) (now : ℚ) :
    recentNotification logs uid pid now = none ↔
      ∀ r ∈ logs, ¬ (r.user_id = uid ∧ r.poi_id = pid ∧
        now - cooldownSeconds ≤ r.timestamp) := by
  rw [recentNotification, List.find?_eq_none]
  simp [throttlePred, Bool.and_eq_true, beq_iff_eq, decide_eq_true_eq,
    and_assoc, sub_le_iff_le_add]

/-- Claim C4: the cooldown is four hours, and the evaluation is throttled
exactly when a POI is selected and some log record of the same user and
POI has a timestamp at or after now minus the cooldown. -/
theorem throttle_gate_spec (dist : ℚ → ℚ → ℚ → ℚ → ℚ)
    (pois : List POILocation) (cards : List UserCard)
    (logs : List NotificationLog) (uid : String) (now : ℚ)
    (loc : LocationCheck) :
    cooldownSeconds = 4 * 3600 ∧
    (∀ pid, (recentNotification logs uid pid now).isSome ↔
      ∃ r ∈ logs, r.user_id = uid ∧ r.poi_id = pid ∧
        now - cooldownSeconds ≤ r.timestamp) ∧
    ((∃ m c, (check_location dist pois cards logs uid now loc).1
        = .throttled m c) ↔
      ∃ p d, nearestPOI dist loc pois = some (p, d) ∧
        ∃ r ∈ logs, r.user_id = uid ∧ r.poi_id = p.id ∧
          now - cooldownSeconds ≤ r.timestamp) := by
  refine ⟨rfl, fun pid => recentNotification_isSome_iff logs uid pid now, ?_⟩
  constructor
  · rintro ⟨m, c, hout⟩
    rcases check_location_inv dist pois cards logs uid now loc with
      ⟨_, heq⟩ | ⟨p, d, hn, ⟨r, hr, heq⟩ | ⟨_, hrest⟩⟩
    · rw [heq] at hout; simp at hout
    · refine ⟨p, d, hn, r, List.mem_of_find?_eq_some hr, ?_⟩
      have hpred := List.find?_some hr
      simp only [throttlePred, Bool.and_eq_true, beq_iff_eq,
        decide_eq_true_eq] at hpred
      exact ⟨hpred.1.1, hpred.1.2, hpred.2⟩
    · rcases hrest with ⟨_, heq⟩ | ⟨_, ⟨_, heq⟩ | ⟨bc, br, _, heq⟩⟩ <;>
        (rw [heq] at hout; simp at hout)
  · rintro ⟨p, d, hn, r, hmem, h1, h2, h3⟩
    have hsome : (recentNotification logs uid p.id now).isSome :=
      (recentNotification_isSome_iff logs uid p.id now).mpr ⟨r, hmem, h1, h2, h3⟩
    rcases hs : recentNotification logs uid p.id now with _ | r'
    · rw [hs] at hsome; simp at hsome
    · exact ⟨p.name, p.category, by simp [check_location, hn, hs]⟩

/-- Witness for claim C4, applying the theorem where one in-window record
exists for the selected POI. -/
theorem throttle_gate_spec_witness :
    ∃ m c, (check_location (fun _ _ _ _ => 0)
        [⟨"p1", "Shop", "gas", 0, 0, 150⟩] [⟨"CardA", [("gas", 3)]⟩]
        [⟨"u", "p1", "CardA", 0⟩] "u" 0 ⟨0, 0, "u"⟩).1 = .throttled m c :=
  (throttle_gate_spec (fun _ _ _ _ => 0) [⟨"p1", "Shop", "gas", 0, 0, 150⟩]
      [⟨"CardA", [("gas", 3)]⟩] [⟨"u", "p1", "CardA", 0⟩] "u" 0
      ⟨0, 0, "u"⟩).2.2.mpr
    ⟨⟨"p1", "Shop", "gas", 0, 0, 150⟩, 0, by decide,
      ⟨"u", "p1", "CardA", 0⟩, by decide, rfl, rfl, by norm_num [cooldownSeconds]⟩

/-- Claim C5: a notification record is appended exactly once per
recommended outcome, before returning; on every other outcome the log is
unchanged; and a throttled evaluation is decided before any reward
computation: its whole result is the same for every wallet, with no write. -/
theorem engine_log_frame (dist : ℚ → ℚ → ℚ → ℚ → ℚ)
    (pois : List POILocation) (cards : List UserCard)
    (logs : List NotificationLog) (uid : String) (now : ℚ)
    (loc : LocationCheck) :
    (∀ rec, (check_location dist pois cards logs uid now loc).1
        = .recommended rec →
      ∃ p d bc br, nearestPOI dist loc pois = some (p, d) ∧
        recentNotification logs uid p.id now = none ∧
        get_best_card_for_category cards p.category = some (bc, br) ∧
        (check_location dist pois cards logs uid now loc).2
          = logs ++ [mkLog uid p bc now]) ∧
    ((∀ rec, (check_location dist pois cards logs uid now loc).1
        ≠ .recommended rec) →
      (check_location dist pois cards logs uid now loc).2 = logs) ∧
    (∀ m c, (check_location dist pois cards logs uid now loc).1
        = .throttled m c →
      ∀ cards', check_location dist pois cards' logs uid now loc
        = (.throttled m c, logs)) := by
  refine ⟨?_, ?_, ?_⟩
  · intro rec hout
    rcases check_location_inv dist pois cards logs uid now loc with
      ⟨_, heq⟩ | ⟨p, d, hn, ⟨r, hr, heq⟩ | ⟨hrn, ⟨_, heq⟩ | ⟨_, ⟨_, heq⟩ |
        ⟨bc, br, hg, heq⟩⟩⟩⟩
    · rw [heq] at hout; simp at hout
    · rw [heq] at hout; simp at hout
    · rw [heq] at hout; simp at hout
    · rw [heq] at hout; simp at hout
    · exact ⟨p, d, bc, br, hn, hrn, hg, by rw [heq]⟩
  · intro hne
    rcases check_location_inv dist pois cards logs uid now loc with
      ⟨_, heq⟩ | ⟨p, d, hn, ⟨r, hr, heq⟩ | ⟨hrn, ⟨_, heq⟩ | ⟨_, ⟨_, heq⟩ |
        ⟨bc, br, hg, heq⟩⟩⟩⟩
    · rw [heq]
    · rw [heq]
    · rw [heq]
    · rw [heq]
    · exact absurd (by rw [heq] : (check_location dist pois cards logs uid
        now loc).1 = .recommended (mkRecommendation p bc br))
        (hne (mkRecommendation p bc br))
  · intro m c hout cards'
    rcases check_location_inv dist pois cards logs uid now loc with
      ⟨_, heq⟩ | ⟨p, d, hn, ⟨r, hr, heq⟩ | ⟨hrn, ⟨_, heq⟩ | ⟨_, ⟨_, heq⟩ |
        ⟨bc, br, hg, heq⟩⟩⟩⟩
    · rw [heq] at hout; simp at hout
    · rw [heq] at hout
      injection hout with hm hc
      rcases hs : recentNotification logs uid p.id now with _ | r''
      · rw [hs] at hr; cases hr
      · simp [check_location, hn, hs, ← hm, ← hc]
    · rw [heq] at hout; simp at hout
    · rw [heq] at hout; simp at hout
    · rw [heq] at hout; simp at hout

/-- The concrete throttling query of the witnesses below, evaluated: the
lone record is inside the window. -/
lemma recentNotification_witness_eval :
    recentNotification [⟨"u", "p1", "CardA", 0⟩] "u" "p1" 0
      = some ⟨"u", "p1", "CardA", 0⟩ := by
  refine List.find?_cons_of_pos _ ?_
  simp only [throttlePred, Bool.and_eq_true, beq_iff_eq, decide_eq_true_eq]
  norm_num [cooldownSeconds]

/-- Witness for claim C5: a throttled call leaves the log untouched and
gives the same result with an empty wallet. -/
theorem engine_log_frame_witness :
    check_location (fun _ _ _ _ => 0) [⟨"p1", "Shop", "gas", 0, 0, 150⟩] []
        [⟨"u", "p1", "CardA", 0⟩] "u" 0 ⟨0, 0, "u"⟩
      = (.throttled "Shop" "gas", [⟨"u", "p1", "CardA", 0⟩]) :=
  (engine_log_frame (fun _ _ _ _ => 0) [⟨"p1", "Shop", "gas", 0, 0, 150⟩]
      [⟨"CardA", [("gas", 3)]⟩] [⟨"u", "p1", "CardA", 0⟩] "u" 0
      ⟨0, 0, "u"⟩).2.2 "Shop" "gas"
    (by
      simp [check_location,
        show nearestPOI (fun _ _ _ _ => 0) ⟨0, 0, "u"⟩
            [⟨"p1", "Shop", "gas", 0, 0, 150⟩]
          = some (⟨"p1", "Shop", "gas", 0, 0, 150⟩, 0) from by decide,
        recentNotification_witness_eval]) []

/-! ## Claim C3: reward-text formatting -/

/-- Counterexample to claim C3: `best_rate` is a Python float, so the
f-string of server.py line 405 renders rate 3 as `3.0% back`, not
`3% back`: the claimed strings for rates below 10 are wrong, as the full
handler shows on a concrete recommendation. -/
theorem reward_format_counterexample :
    rewardText 3 = "3.0% back" ∧
    rewardText 3 ≠ "3% back" ∧
    (check_location (fun _ _ _ _ => 0) [⟨"p1", "Shop", "gas", 0, 0, 150⟩]
        [⟨"CardA", [("gas", 3)]⟩] [] "u" 0 ⟨0, 0, "u"⟩).1
      = .recommended ⟨"Shop", "gas", "CardA", "3.0% back",
          "Hey, you\x27re at Shop! Use CardA to get 3.0% back."⟩ :=
  ⟨by decide, by decide, by decide⟩

/-- Claim C3 as amended: for an integral rate n the reward text is the
float repr `n.0% back` below 10 and `nx points` at 10 and above (rates 3,
5, 2 give 3.0/5.0/2.0% back, 10 gives 10x points), and every recommended
message embeds the merchant name and the card name in the fixed message
shape. -/
theorem reward_text_format (n : ℤ) :
    ((n : ℚ) < 10 → rewardText (n : ℚ) = toString n ++ ".0% back") ∧
    (10 ≤ (n : ℚ) → rewardText (n : ℚ) = toString n ++ "x points") ∧
    (∀ dist pois cards logs uid now loc rec,
      (check_location dist pois cards logs uid now loc).1
          = .recommended rec →
        rec.message = "Hey, you\x27re at " ++ rec.merchant_name ++ "! Use "
          ++ rec.recommended_card ++ " to get " ++ rec.reward_rate ++ ".") ∧
    rewardText 3 = "3.0% back" ∧ rewardText 5 = "5.0% back" ∧
    rewardText 2 = "2.0% back" ∧ rewardText 10 = "10x points" := by
  have hden : ((n : ℚ)).den = 1 := Rat.den_intCast n
  have hnum : ((n : ℚ)).num = n := Rat.num_intCast n
  refine ⟨?_, ?_, ?_, by decide, by decide, by decide, by decide⟩
  · intro h
    rw [rewardText, if_pos h, pyFloatRepr, if_pos hden, hnum,
      String.append_assoc]
    exact congrArg (fun s => toString n ++ s)
      (by decide : (".0" ++ "% back" : String) = ".0% back")
  · intro h
    rw [rewardText, if_neg (not_lt.mpr h), pyTrunc, hnum, hden]
    norm_num [Int.tdiv_one]
  · intro dist pois cards logs uid now loc rec hout
    rcases check_location_inv dist pois cards logs uid now loc with
      ⟨_, heq⟩ | ⟨p, d, hn, ⟨r, hr, heq⟩ | ⟨hrn, ⟨_, heq⟩ | ⟨_, ⟨_, heq⟩ |
        ⟨bc, br, hg, heq⟩⟩⟩⟩
    · rw [heq] at hout; simp at hout
    · rw [heq] at hout; simp at hout
    · rw [heq] at hout; simp at hout
    · rw [heq] at hout; simp at hout
    · rw [heq] at hout
      simp only [CheckOutcome.recommended.injEq] at hout
      rw [← hout]
      rfl

/-- Witness for claim C3 as amended at the rates 3 and 12, the bound
hypotheses discharged numerically. -/
theorem reward_text_format_witness :
    rewardText ((3 : ℤ) : ℚ) = toString (3 : ℤ) ++ ".0% back" ∧
      rewardText ((12 : ℤ) : ℚ) = toString (12 : ℤ) ++ "x points" :=
  ⟨(reward_text_format 3).1 (by norm_num),
    (reward_text_format 12).2.1 (by norm_num)⟩

/-! ## Claim C6: coordinate validation -/

/-- The handler answers not-found exactly when the nearest-POI selection is
empty. -/
lemma check_location_fst_eq_notFound_iff (dist : ℚ → ℚ → ℚ → ℚ → ℚ)
    (pois : List POILocation) (cards : List UserCard)
    (logs : List NotificationLog) (uid : String) (now : ℚ)
    (loc : LocationCheck) :
    (check_location dist pois cards logs uid now loc).1 = .notFound ↔
      nearestPOI dist loc pois = none := by
  rcases check_location_inv dist pois cards logs uid now loc with
    ⟨hn, heq⟩ | ⟨p, d, hn, ⟨r, hr, heq⟩ | ⟨hrn, ⟨_, heq⟩ | ⟨_, ⟨_, heq⟩ |
      ⟨bc, br, hg, heq⟩⟩⟩⟩ <;> rw [heq] <;> simp [hn]

/-- Counterexample to claim C6: the `LocationCheck` model (server.py lines
89-92) declares the coordinates as unconstrained floats and the handler
performs no range check, so latitude 91 is not rejected: the evaluation
runs the geofence filter and its outcome depends on the computed
distances (a recommendationless no-cards outcome when the POI is within
radius, not-found when it is not), instead of failing with a validation
error before geo computation. -/
theorem coordinate_validation_counterexample :
    ¬ ((-90 : ℚ) ≤ 91 ∧ (91 : ℚ) ≤ 90) ∧
    (check_location (fun _ _ _ _ => 0) [⟨"p1", "Shop", "gas", 0, 0, 150⟩]
        [] [] "u" 0 ⟨91, 0, "u"⟩).1 = .noCards "Shop" "gas" ∧
    (check_location (fun _ _ _ _ => 1000) [⟨"p1", "Shop", "gas", 0, 0, 150⟩]
        [] [] "u" 0 ⟨91, 0, "u"⟩).1 = .notFound :=
  ⟨by decide, by decide, by decide⟩

/-- Claim C6 as amended: `check_location` performs no coordinate
validation: an input with latitude or longitude out of range is processed
through the ordinary geofence pipeline, its outcome still determined by
the computed distances (not-found exactly when no POI is within its
radius), with no rejection before or instead of geo computation. -/
theorem no_coordinate_validation (dist : ℚ → ℚ → ℚ → ℚ → ℚ)
    (pois : List POILocation) (cards : List UserCard)
    (logs : List NotificationLog) (uid : String) (now : ℚ)
    (lat lon : ℚ) (ruid : String)
    (_h : lat < -90 ∨ 90 < lat ∨ lon < -180 ∨ 180 < lon) :
    (check_location dist pois cards logs uid now ⟨lat, lon, ruid⟩).1
        = .notFound ↔
      ∀ p ∈ pois, ¬ dist lat lon p.latitude p.longitude ≤ p.radius := by
  rw [check_location_fst_eq_notFound_iff,
    nearestPOI_eq_none_iff dist ⟨lat, lon, ruid⟩ pois]
  rfl

/-- Witness for claim C6 as amended: latitude 91 (out of range) still goes
through the distance filter and yields not-found exactly because the lone
POI is out of reach. -/
theorem no_coordinate_validation_witness :
    (check_location (fun _ _ _ _ => 1000) [⟨"p1", "Shop", "gas", 0, 0, 150⟩]
        [] [] "u" 0 ⟨91, 0, "u"⟩).1 = .notFound :=
  (no_coordinate_validation (fun _ _ _ _ => 1000)
      [⟨"p1", "Shop", "gas", 0, 0, 150⟩] [] [] "u" 0 91 0 "u"
      (Or.inr (Or.inl (by norm_num)))).mpr (by decide)

/-! ## Claim C7: the cooldown-window invariant and throttle idempotence -/

/-- Number of notification-log records of a (user, POI) pair inside the
cooldown window at evaluation time t. -/
def activeCount (logs : List NotificationLog) (uid pid : String) (t : ℚ) :
    ℕ :=
  logs.countP (throttlePred uid pid t)

/-- A sequence of handler calls at the given times, same user, coordinates,
catalog and wallet, threading the notification log through. -/
def runChecks (dist : ℚ → ℚ → ℚ → ℚ → ℚ) (pois : List POILocation)
    (cards : List UserCard) (uid : String) (loc : LocationCheck)
    (times : List ℚ) (logs : List NotificationLog) : List NotificationLog :=
  times.foldl (fun lg t => (check_location dist pois cards lg uid t loc).2) logs

/-- Invariant carried through a run: every record belongs to the user and
is not in the future, and every (user, POI) pair has at most one record
inside the cooldown window. -/
def GoodLog (uid : String) (t : ℚ) (logs : List NotificationLog) : Prop :=
  (∀ r ∈ logs, r.user_id = uid ∧ r.timestamp ≤ t) ∧
    ∀ pid, activeCount logs uid pid t ≤ 1

/-- Moving the evaluation time forward only shrinks the cooldown window. -/
lemma throttlePred_mono {uid pid : String} {t t' : ℚ} (h : t ≤ t')
    (r : NotificationLog) :
    throttlePred uid pid t' r = true → throttlePred uid pid t r = true := by
  simp only [throttlePred, Bool.and_eq_true, decide_eq_true_eq]
  rintro ⟨⟨h1, h2⟩, h3⟩
  exact ⟨⟨h1, h2⟩, le_trans (by linarith) h3⟩

/-- The invariant survives moving the evaluation time forward. -/
lemma GoodLog_mono {uid : String} {t t' : ℚ} {logs : List NotificationLog}
    (h : GoodLog uid t logs) (htt : t ≤ t') : GoodLog uid t' logs :=
  ⟨fun r hr => ⟨(h.1 r hr).1, le_trans (h.1 r hr).2 htt⟩,
    fun pid => le_trans
      (List.countP_mono_left fun r _ hr => throttlePred_mono htt r hr)
      (h.2 pid)⟩

/-- The invariant survives one handler call at the current time: the only
path that writes is the recommendation path, and it writes only when the
throttling query found no in-window record for the pair. -/
lemma GoodLog_step (dist : ℚ → ℚ → ℚ → ℚ → ℚ) (pois : List POILocation)
    (cards : List UserCard) (uid : String) (loc : LocationCheck) {t : ℚ}
    {logs : List NotificationLog} (h : GoodLog uid t logs) :
    GoodLog uid t (check_location dist pois cards logs uid t loc).2 := by
  rcases check_location_inv dist pois cards logs uid t loc with
    ⟨_, heq⟩ | ⟨p, d, hn, ⟨r, hr, heq⟩ | ⟨hrn, ⟨_, heq⟩ | ⟨_, ⟨_, heq⟩ |
      ⟨bc, br, hg, heq⟩⟩⟩⟩
  · rw [heq]; exact h
  · rw [heq]; exact h
  · rw [heq]; exact h
  · rw [heq]; exact h
  · rw [heq]
    constructor
    · intro r hr
      rcases List.mem_append.mp hr with hr' | hr'
      · exact h.1 r hr'
      · rw [List.mem_singleton.mp hr']
        exact ⟨rfl, le_refl t⟩
    · intro pid
      rw [activeCount, List.countP_append]
      by_cases hpid : pid = p.id
      · subst hpid
        have hzero : logs.countP (throttlePred uid p.id t) = 0 := by
          refine List.countP_eq_zero.mpr fun r hr' => ?_
          have := List.find?_eq_none.mp hrn r hr'
          simpa using this
        rw [hzero]
        have hone : [mkLog uid p bc t].countP (throttlePred uid p.id t) ≤ 1 := by
          simp only [List.countP_cons, List.countP_nil]
          split <;> omega
        omega
      · have hzero : [mkLog uid p bc t].countP (throttlePred uid pid t) = 0 := by
          refine List.countP_eq_zero.mpr fun r hr' => ?_
          rw [List.mem_singleton.mp hr']
          simp only [throttlePred, mkLog, Bool.and_eq_true, beq_iff_eq,
            decide_eq_true_eq]
          rintro ⟨⟨-, hpe⟩, -⟩
          exact hpid hpe.symm
        rw [hzero]
        have := h.2 pid
        rw [activeCount] at this
        omega

/-- The invariant holds after any nondecreasing run that starts in a good
state. -/
lemma runChecks_good (dist : ℚ → ℚ → ℚ → ℚ → ℚ) (pois : List POILocation)
    (cards : List UserCard) (uid : String) (loc : LocationCheck) :
    ∀ (times : List ℚ) (t0 : ℚ) (logs : List NotificationLog),
      GoodLog uid t0 logs → times.Pairwise (· ≤ ·) →
      (∀ s ∈ times, t0 ≤ s) →
      ∀ t, (∀ s ∈ times, s ≤ t) → t0 ≤ t →
      GoodLog uid t (runChecks dist pois cards uid loc times logs) := by
  intro times
  induction times with
  | nil =>
    intro t0 logs hg _ _ t _ ht0
    exact GoodLog_mono hg ht0
  | cons s rest ih =>
    intro t0 logs hg hpw hge t hle ht0
    have hgs : GoodLog uid s logs :=
      GoodLog_mono hg (hge s (List.mem_cons_self _ _))
    have hstep := GoodLog_step dist pois cards uid loc hgs
    exact ih s _ hstep (List.pairwise_cons.mp hpw).2
      (fun x hx => (List.pairwise_cons.mp hpw).1 x hx)
      t (fun x hx => hle x (List.mem_cons_of_mem _ hx))
      (hle s (List.mem_cons_self _ _))

/-- Claim C7: starting from an empty log, any nondecreasing sequence of
handler calls leaves at most one in-window record per (user, POI) pair at
every evaluation time at or after the calls; and with a fixed now, a call
that recommends is followed by a throttled call with the log unchanged,
while a third call after the cooldown has passed recommends again. -/
theorem throttle_window_invariant (dist : ℚ → ℚ → ℚ → ℚ → ℚ)
    (pois : List POILocation) (cards : List UserCard) (uid : String)
    (loc : LocationCheck) :
    (∀ times : List ℚ, times.Pairwise (· ≤ ·) →
      ∀ t, (∀ s ∈ times, s ≤ t) →
      ∀ pid,
        activeCount (runChecks dist pois cards uid loc times []) uid pid t
          ≤ 1) ∧
    (∀ now rec logs1,
      check_location dist pois cards [] uid now loc
          = (.recommended rec, logs1) →
      check_location dist pois cards logs1 uid now loc
          = (.throttled rec.merchant_name rec.category, logs1) ∧
        ∀ t3, now + cooldownSeconds < t3 →
          (check_location dist pois cards logs1 uid t3 loc).1
            = .recommended rec) := by
  constructor
  · intro times hpw t hle pid
    cases times with
    | nil => simp [runChecks, activeCount]
    | cons s rest =>
      refine (runChecks_good dist pois cards uid loc (s :: rest) s []
        ⟨by simp, fun _ => by simp [activeCount]⟩ hpw ?_ t hle
        (hle s (List.mem_cons_self _ _))).2 pid
      intro x hx
      rcases List.mem_cons.mp hx with rfl | hx'
      · exact le_refl x
      · exact (List.pairwise_cons.mp hpw).1 x hx'
  · intro now rec logs1 h
    rcases check_location_inv dist pois cards [] uid now loc with
      ⟨_, heq⟩ | ⟨p, d, hn, ⟨r, hr, heq⟩ | ⟨hrn, ⟨_, heq⟩ | ⟨hcne, ⟨_, heq⟩ |
        ⟨bc, br, hg, heq⟩⟩⟩⟩
    · rw [heq] at h; simp [Prod.ext_iff] at h
    · rw [heq] at h; simp [Prod.ext_iff] at h
    · rw [heq] at h; simp [Prod.ext_iff] at h
    · rw [heq] at h; simp [Prod.ext_iff] at h
    · rw [heq] at h
      simp only [Prod.mk.injEq, CheckOutcome.recommended.injEq,
        List.nil_append] at h
      obtain ⟨hrec, hlogs⟩ := h
      subst hrec
      subst hlogs
      have hcd : (0 : ℚ) ≤ cooldownSeconds := by norm_num [cooldownSeconds]
      have hpred : throttlePred uid p.id now (mkLog uid p bc now) = true := by
        simp only [throttlePred, mkLog, Bool.and_eq_true, beq_iff_eq,
          decide_eq_true_eq, and_true, true_and, eq_self_iff_true]
        linarith
      have hr2 : recentNotification [mkLog uid p bc now] uid p.id now
          = some (mkLog uid p bc now) := List.find?_cons_of_pos _ hpred
      constructor
      · simp [check_location, hn, hr2, mkRecommendation]
      · intro t3 ht3
        have hr3 : recentNotification [mkLog uid p bc now] uid p.id t3
            = none := by
          rw [recentNotification]
          refine List.find?_eq_none.mpr fun x hx => ?_
          rw [List.mem_singleton.mp hx]
          simp only [throttlePred, mkLog, Bool.and_eq_true, beq_iff_eq,
            decide_eq_true_eq]
          rintro ⟨-, h3⟩
          linarith
        simp [check_location, hn, hr3, hcne, hg, mkRecommendation]

/-- Witness for claim C7: two calls at time 0 keep a single in-window
record; the second call at the same time is throttled with the log
unchanged; a call at time 20000 (past the 14400-second cooldown)
recommends again. -/
theorem throttle_window_invariant_witness :
    activeCount (runChecks (fun _ _ _ _ => 0)
        [⟨"p1", "Shop", "gas", 0, 0, 150⟩] [⟨"CardA", [("gas", 3)]⟩] "u"
        ⟨0, 0, "u"⟩ [0, 0] []) "u" "p1" 0 ≤ 1 ∧
    check_location (fun _ _ _ _ => 0) [⟨"p1", "Shop", "gas", 0, 0, 150⟩]
        [⟨"CardA", [("gas", 3)]⟩] [⟨"u", "p1", "CardA", 0⟩] "u" 0 ⟨0, 0, "u"⟩
      = (.throttled "Shop" "gas", [⟨"u", "p1", "CardA", 0⟩]) ∧
    (check_location (fun _ _ _ _ => 0) [⟨"p1", "Shop", "gas", 0, 0, 150⟩]
        [⟨"CardA", [("gas", 3)]⟩] [⟨"u", "p1", "CardA", 0⟩] "u" 20000
        ⟨0, 0, "u"⟩).1
      = .recommended ⟨"Shop", "gas", "CardA", "3.0% back",
          "Hey, you\x27re at Shop! Use CardA to get 3.0% back."⟩ := by
  have hmain := throttle_window_invariant (fun _ _ _ _ => 0)
    [⟨"p1", "Shop", "gas", 0, 0, 150⟩] [⟨"CardA", [("gas", 3)]⟩] "u"
    ⟨0, 0, "u"⟩
  have h2 := hmain.2 0
    ⟨"Shop", "gas", "CardA", "3.0% back",
      "Hey, you\x27re at Shop! Use CardA to get 3.0% back."⟩
    [⟨"u", "p1", "CardA", 0⟩] (by decide)
  exact ⟨hmain.1 [0, 0] (by simp) 0 (by simp) "p1", h2.1,
    h2.2 20000 (by norm_num [cooldownSeconds])⟩

/-! ## Claim C8: the haversine distance function over the reals -/

/-- Model of the Python `math.atan2` call of server.py line 149, over the
reals: the angle of the point (x, y), with the same case split as the C
library function (the source only ever calls it with two nonnegative
square roots). -/
noncomputable def atan2 (y x : ℝ) : ℝ :=
  if 0 < x then Real.arctan (y / x)
  else if x < 0 then
    (if 0 ≤ y then Real.arctan (y / x) + Real.pi
      else Real.arctan (y / x) - Real.pi)
  else
    (if 0 < y then Real.pi / 2 else if y < 0 then -(Real.pi / 2) else 0)

/-- Python `math.radians`: degrees to radians. -/
noncomputable def radians (x : ℝ) : ℝ :=
  x * Real.pi / 180

/-- Translation of `calculate_distance` (server.py lines 139-151): the
haversine formula with Earth radius 6371000 m, in exact real arithmetic. -/
noncomputable def calculate_distance (lat1 lon1 lat2 lon2 : ℝ) : ℝ :=
  let R : ℝ := 6371000
  let phi1 := radians lat1
  let phi2 := radians lat2
  let delta_phi := radians (lat2 - lat1)
  let delta_lambda := radians (lon2 - lon1)
  let a := Real.sin (delta_phi / 2) ^ 2 +
    Real.cos phi1 * Real.cos phi2 * Real.sin (delta_lambda / 2) ^ 2
  let c := 2 * atan2 (Real.sqrt a) (Real.sqrt (1 - a))
  R * c

/-- The let-free form of `calculate_distance`. -/
lemma calculate_distance_def (lat1 lon1 lat2 lon2 : ℝ) :
    calculate_distance lat1 lon1 lat2 lon2 = 6371000 * (2 * atan2
      (Real.sqrt (Real.sin (radians (lat2 - lat1) / 2) ^ 2 +
        Real.cos (radians lat1) * Real.cos (radians lat2) *
          Real.sin (radians (lon2 - lon1) / 2) ^ 2))
      (Real.sqrt (1 - (Real.sin (radians (lat2 - lat1) / 2) ^ 2 +
        Real.cos (radians lat1) * Real.cos (radians lat2) *
          Real.sin (radians (lon2 - lon1) / 2) ^ 2)))) := rfl

/-- With a nonnegative ordinate the angle is nonnegative (the haversine
always calls `atan2` on nonnegative square roots). -/
lemma atan2_nonneg {y x : ℝ} (hy : 0 ≤ y) : 0 ≤ atan2 y x := by
  unfold atan2
  by_cases hx : 0 < x
  · rw [if_pos hx]
    have h := Real.arctan_strictMono.monotone (div_nonneg hy (le_of_lt hx))
    rwa [Real.arctan_zero] at h
  · rw [if_neg hx]
    by_cases hx2 : x < 0
    · rw [if_pos hx2, if_pos hy]
      have h1 := Real.neg_pi_div_two_lt_arctan (y / x)
      have hpi := Real.pi_pos
      linarith
    · rw [if_neg hx2]
      by_cases hy2 : 0 < y
      · rw [if_pos hy2]
        have hpi := Real.pi_pos
        linarith
      · rw [if_neg hy2, if_neg (not_lt.mpr hy)]

/-- Claim C8: in exact arithmetic `calculate_distance` is nonnegative,
symmetric in its two coordinates, and zero on identical coordinates (the
real numbers have no NaN: nonnegativity is the whole no-negative-result
contract). -/
theorem calculate_distance_spec (lat1 lon1 lat2 lon2 : ℝ) :
    0 ≤ calculate_distance lat1 lon1 lat2 lon2 ∧
    calculate_distance lat1 lon1 lat2 lon2
      = calculate_distance lat2 lon2 lat1 lon1 ∧
    calculate_distance lat1 lon1 lat1 lon1 = 0 := by
  refine ⟨?_, ?_, ?_⟩
  · rw [calculate_distance_def]
    have h := @atan2_nonneg
      (Real.sqrt (Real.sin (radians (lat2 - lat1) / 2) ^ 2 +
        Real.cos (radians lat1) * Real.cos (radians lat2) *
          Real.sin (radians (lon2 - lon1) / 2) ^ 2))
      (Real.sqrt (1 - (Real.sin (radians (lat2 - lat1) / 2) ^ 2 +
        Real.cos (radians lat1) * Real.cos (radians lat2) *
          Real.sin (radians (lon2 - lon1) / 2) ^ 2)))
      (Real.sqrt_nonneg _)
    linarith
  · rw [calculate_distance_def, calculate_distance_def]
    have h1 : Real.sin (radians (lat1 - lat2) / 2) ^ 2
        = Real.sin (radians (lat2 - lat1) / 2) ^ 2 := by
      have hneg : radians (lat1 - lat2) = -radians (lat2 - lat1) := by
        simp only [radians]; ring
      rw [hneg, neg_div, Real.sin_neg, neg_sq]
    have h2 : Real.sin (radians (lon1 - lon2) / 2) ^ 2
        = Real.sin (radians (lon2 - lon1) / 2) ^ 2 := by
      have hneg : radians (lon1 - lon2) = -radians (lon2 - lon1) := by
        simp only [radians]; ring
      rw [hneg, neg_div, Real.sin_neg, neg_sq]
    rw [h1, h2,
      mul_comm (Real.cos (radians lat2)) (Real.cos (radians lat1))]
  · rw [calculate_distance_def]
    have h0 : radians (lat1 - lat1) = 0 := by
      simp [radians]
    have h0l : radians (lon1 - lon1) = 0 := by
      simp [radians]
    rw [h0, h0l]
    simp only [zero_div, Real.sin_zero, ne_eq, OfNat.ofNat_ne_zero,
      not_false_eq_true, zero_pow, mul_zero, add_zero, Real.sqrt_zero,
      sub_zero, Real.sqrt_one]
    rw [show atan2 0 1 = Real.arctan (0 / 1) from if_pos one_pos]
    rw [zero_div, Real.arctan_zero]
    ring

end TapRight
